import Mathlib

/-!
Verification of the gastown session-backend core (package `internal/amux`,
package `witness`, and the `internal/session` backend contract).

The Go source is shallowly embedded: subprocess invocations of the external
`amux` multiplexer CLI are modelled as oracle inputs (the outcome the probe
would have produced), and each Go function is translated into a pure Lean
function of those oracles.  Go `error` values are modelled by the inductive
`GoError`; `fmt.Errorf` with `%w` is modelled by the `wrap` constructor, which
records the formatted text together with the wrapped inner error, and
`errors.Is` by the structural unwrapping `errIs`.

The repository contains several snapshots of the amux adapter.  They are kept
apart by namespace:
* `Amux`       — internal/amux/amux.go, first (current) segment;
* `AmuxLs`     — internal/amux/amux.go, second segment (the `ls`-based
                  `IsAgentRunning`);
* `AmuxNoSend` — the adapter segment of src/unnamed/part_002, whose `SendKeys`
                  is not supported;
* `Witness`    — the witness `Manager` of src/unnamed/part_002.
-/

/-! ## String utilities

`String.trim` and substring search are re-implemented over `List Char` so that
every definition reduces in the kernel.  `goContains` models Go
`strings.Contains`, `goTrim` models `strings.TrimSpace`, `cutEq` models both
`strings.Cut(s, "=")` and `strings.SplitN(s, "=", 2)` (split at the first
`'='`). -/

/-- Is `p` a prefix of `s`?  (Boolean, structurally recursive.) -/
def hasPrefixL : List Char → List Char → Bool
  | [], _ => true
  | _ :: _, [] => false
  | p :: ps, c :: cs => p == c && hasPrefixL ps cs

/-- Does `pat` occur as a contiguous substring of `s`? -/
def hasInfixL (s pat : List Char) : Bool :=
  hasPrefixL pat s ||
    match s with
    | [] => false
    | _ :: rest => hasInfixL rest pat

/-- Go `strings.Contains s pat`. -/
def goContains (s pat : String) : Bool :=
  hasInfixL s.toList pat.toList

/-- Go `strings.TrimSpace`: drop whitespace from both ends. -/
def goTrim (s : String) : String :=
  String.mk ((((s.toList.dropWhile Char.isWhitespace).reverse.dropWhile
    Char.isWhitespace)).reverse)

/-- Go `strings.Cut(s, "=")` (also `strings.SplitN(s, "=", 2)` restricted to
the two-part case): split `s` at the first `'='`, returning `none` when `s`
contains no `'='`. -/
def cutEq (s : String) : Option (String × String) :=
  let pre := s.toList.takeWhile (fun c => c != '=')
  match s.toList.dropWhile (fun c => c != '=') with
  | [] => none
  | _ :: rest => some (String.mk pre, String.mk rest)

/-- Go `%q` applied to a string with no characters needing escapes (every
session name and key text appearing in the claims is escape-free): wrap in
double quotes. -/
def goQuote (s : String) : String := "\"" ++ s ++ "\""

/-! ## Go errors -/

/-- Model of Go `error` values used by the amux / witness packages.
Sentinel errors are constructors; `errorf t` is a `fmt.Errorf` result without
`%w` whose `Error()` text is `t`; `wrap t inner` is a `fmt.Errorf` result with
`%w` whose full `Error()` text is `t` and which unwraps to `inner`. -/
inductive GoError where
  | noDaemon
  | sessionExists
  | sessionNotFound
  | notImplemented
  | sendKeysNotSupport
  | alreadyRunning
  | notRunning
  | errorf (text : String)
  | wrap (text : String) (inner : GoError)
deriving DecidableEq, Repr

/-- Go `err.Error()`.  The sentinel texts are the `errors.New` strings of the
source (`internal/amux/amux.go` lines 26–33 / part_002 lines 27–33, and the
witness sentinels of part_002 lines 343–346). -/
def errText : GoError → String
  | .noDaemon => "amux daemon not running"
  | .sessionExists => "session already exists"
  | .sessionNotFound => "session not found"
  | .notImplemented => "not yet implemented in amux"
  | .sendKeysNotSupport => "amux send not yet available (reverted); see gt-1nr"
  | .alreadyRunning => "witness already running"
  | .notRunning => "witness not running"
  | .errorf t => t
  | .wrap t _ => t

/-- Go `errors.Is err target`: structural equality, unwrapping `wrap`. -/
def errIs : GoError → GoError → Bool
  | e, target =>
    e == target ||
      match e with
      | .wrap _ inner => errIs inner target
      | _ => false

/-! ## Error classifier (`wrapError`) — internal/amux/amux.go lines 57–78
(identical in every adapter segment).

`procErr` is the `error` returned by `cmd.Run()`, `stderr` the captured
standard error, `args` the CLI argument list (always non-empty at every call
site; `args[0]` is translated as `args.headD ""`). -/

def wrapError (procErr : GoError) (stderr0 : String) (args : List String) :
    GoError :=
  let stderr := goTrim stderr0
  if goContains stderr "daemon not running" ||
      goContains stderr "connection refused" ||
      goContains stderr "no such file or directory" then
    .noDaemon
  else if goContains stderr "already exists" then
    .sessionExists
  else if goContains stderr "not found" || goContains stderr "no such session" then
    .sessionNotFound
  else if stderr != "" then
    .errorf ("amux " ++ args.headD "" ++ ": " ++ stderr)
  else
    .wrap ("amux " ++ args.headD "" ++ ": " ++ errText procErr) procErr

/-! ## Session data model -/

/-- Structure `SessionInfo` — internal/amux/amux.go lines 148–157: the parsed
`amux ls/info --json` record.  The Go `float64` second counts are modelled as
rationals. -/
structure SessionInfo where
  name : String
  command : String
  pid : Int
  alive : Bool
  createdAt : String
  uptimeSecs : ℚ
  lastActivity : String
  idleSecs : ℚ
deriving DecidableEq, Repr

/-- Modelled from the spec (§3 HealthState): the `tmux.ZombieStatus`
enumeration.  Package `internal/tmux` is not under src/; only its four
constants are referenced by the code under verification. -/
inductive ZombieStatus where
  | sessionHealthy
  | sessionDead
  | agentDead
  | agentHung
deriving DecidableEq, Repr

/-- Go `time.Duration`: a count of nanoseconds. -/
abbrev Duration := Int

/-- Constant `time.Second` in nanoseconds. -/
def secondNs : Int := 1000000000

/-- The idle duration reported by a `SessionInfo`, in (exact) nanoseconds:
`time.Duration(info.IdleSecs * float64(time.Second))` with the float
arithmetic carried out exactly over ℚ. -/
def idleDuration (info : SessionInfo) : ℚ :=
  info.idleSecs * (secondNs : ℚ)

namespace Amux

/-! Current adapter: internal/amux/amux.go, first segment (lines 1–352).
Oracle conventions: `Option GoError` is the (already `wrapError`-classified)
error outcome of the underlying `a.run …` call, `none` meaning success;
`Except GoError SessionInfo` is the outcome of `GetSessionInfo` (run error or
JSON-parse error on the left, parsed record on the right). -/

/-- Source `HasSession` — amux.go lines 137–145.  `hasProbe` is the error outcome of
`a.run "has" "-t" name`.  Any probe failure is treated as "not found". -/
def HasSession (hasProbe : Option GoError) : Bool × Option GoError :=
  match hasProbe with
  | some _ => (false, none)
  | none => (true, none)

/-- Source `IsAgentAlive` — amux.go lines 274–277: `exists, err := HasSession(...);
return err == nil && exists`. -/
def IsAgentAlive (hasProbe : Option GoError) : Bool :=
  let r := HasSession hasProbe
  r.2 == none && r.1

/-- Source `IsAgentRunning` — amux.go lines 252–271.  `infoRes` is the outcome of
`GetSessionInfo session`. -/
def IsAgentRunning (infoRes : Except GoError SessionInfo)
    (expectedPaneCommands : List String) : Bool :=
  match infoRes with
  | .error _ => false
  | .ok info =>
    if !info.alive then false
    else if expectedPaneCommands.isEmpty then true
    else expectedPaneCommands.any (fun cmd => goContains info.command cmd)

/-- Source `CheckSessionHealth` — amux.go lines 287–299.  `infoRes` is the outcome of
`GetSessionInfo session`; `maxInactivity` is in nanoseconds. -/
def CheckSessionHealth (infoRes : Except GoError SessionInfo)
    (maxInactivity : Duration) : ZombieStatus :=
  match infoRes with
  | .error _ => .sessionDead
  | .ok info =>
    if !info.alive then .agentDead
    else if maxInactivity > 0 && (maxInactivity : ℚ) < idleDuration info then
      .agentHung
    else .sessionHealthy

end Amux

namespace AmuxLs

/-- Source `IsAgentRunning` — internal/amux/amux.go, second segment (lines 574–591):
runs `amux ls --json`, and returns whether `session` appears among the listed
names.  `lsRes` is the outcome of the listing (a run error or a JSON-parse
failure on the left, the listed session names on the right); the
`expectedPaneCommands` parameter is accepted but never consulted. -/
def IsAgentRunning (lsRes : Except GoError (List String)) (session : String)
    (expectedPaneCommands : List String) : Bool :=
  match lsRes with
  | .error _ => false
  | .ok sessions => sessions.any (fun s => s == session)

end AmuxLs

namespace AmuxNoSend

/-- Source `HasSession` — src/unnamed/part_002 lines 145–154: not-found and no-daemon
probe failures yield `(false, nil)`; every other probe failure propagates. -/
def HasSession (hasProbe : Option GoError) : Bool × Option GoError :=
  match hasProbe with
  | some err =>
    if errIs err .sessionNotFound || errIs err .noDaemon then (false, none)
    else (false, some err)
  | none => (true, none)

/-- Source `IsAgentAlive` — part_002 lines 258–261. -/
def IsAgentAlive (hasProbe : Option GoError) : Bool :=
  let r := HasSession hasProbe
  r.2 == none && r.1

/-- Source `SendKeys` — part_002 lines 200–202:
`fmt.Errorf("%w: SendKeys(%q)", ErrSendKeysNotSupport, session)`.
Always fails; the formatted text names the operation and the session. -/
def SendKeys (session keys : String) : Option GoError :=
  some (.wrap (errText .sendKeysNotSupport ++ ": SendKeys(" ++ goQuote session ++ ")")
    .sendKeysNotSupport)

end AmuxNoSend

/-! ## Nudge lock registry — internal/amux/amux.go lines 20–23 and 328–352
(identical in part_002).

The registry `sessionNudgeLocks` maps a session name to a one-slot channel
semaphore; `LockState` records, per session name, whether that slot is held.
The model is sequential: `acquireNudgeLock` on a free slot takes it at once,
and on a slot that stays held for the whole window it returns `false` when the
`timeout` fires, with no side effect. -/

/-- Held/free state of every per-session nudge-lock slot. -/
def LockState := String → Bool

/-- Constant `nudgeLockTimeout` — amux.go line 20: `30 * time.Second`, in ns. -/
def nudgeLockTimeout : Duration := 30 * secondNs

/-- Source `acquireNudgeLock` — amux.go lines 335–343.  Returns whether the slot was
taken, together with the updated registry state. -/
def acquireNudgeLock (st : LockState) (session : String) (timeout : Duration) :
    Bool × LockState :=
  if st session then (false, st)
  else (true, fun x => if x = session then true else st x)

/-- Source `releaseNudgeLock` — amux.go lines 346–352: non-blocking drain of the
slot; frees it when held, no-op when free. -/
def releaseNudgeLock (st : LockState) (session : String) : LockState :=
  fun x => if x = session then false else st x

/-- Source `NudgeSession` — amux.go lines 223–231 (identical in part_002 lines
207–215).  `sendRes` is the oracle outcome `SendKeys session message` would
produce.  Returns the Go result, the registry state after the deferred
release has run, and whether delivery was attempted. -/
def NudgeSession (st : LockState) (sendRes : Option GoError)
    (session message : String) : Option GoError × LockState × Bool :=
  let acq := acquireNudgeLock st session nudgeLockTimeout
  if !acq.1 then
    (some (.errorf ("nudge lock timeout for session " ++ goQuote session ++
      ": previous nudge may be hung")), acq.2, false)
  else
    (sendRes, releaseNudgeLock acq.2 session, true)

/-! ## Environment overlay (`buildEnv`) — src/unnamed/part_002 lines 271–292.

The Go `map[string]string` is modelled as an association list with unique
keys; writing to the map is `upsert` (replace the binding when the key is
present, append it otherwise).  A Go `range` over the map visits each binding
once in an unspecified order; the model fixes the insertion order, which is
irrelevant to every membership property stated below. -/

/-- Go `m[k] = v` on an association-list map. -/
def upsert : List (String × String) → String → String → List (String × String)
  | [], k, v => [(k, v)]
  | kv :: rest, k, v =>
    if kv.1 = k then (k, v) :: rest else kv :: upsert rest k v

/-- Go `m[k]` (comma-ok lookup) on an association-list map. -/
def lookupKey : List (String × String) → String → Option String
  | [], _ => none
  | kv :: rest, k => if kv.1 = k then some kv.2 else lookupKey rest k

/-- The `base` map of `buildEnv`: parse each `os.Environ()` entry with
`strings.SplitN(e, "=", 2)`, keeping the entries that contain a `'='`
(`len(parts) == 2`) and writing `base[parts[0]] = parts[1]`. -/
def baseEnvMap (procEnv : List String) : List (String × String) :=
  (procEnv.filterMap cutEq).foldl (fun m kv => upsert m kv.1 kv.2) []

/-- Source `buildEnv` — part_002 lines 271–292: overlay the provided pairs over the
inherited environment, then emit each binding as `k ++ "=" ++ v`.
`procEnv` models `os.Environ()`; `env` models the Go map argument (its keys
are distinct whenever it arose from a real Go map). -/
def buildEnv (procEnv : List String) (env : List (String × String)) :
    List String :=
  let merged := env.foldl (fun m kv => upsert m kv.1 kv.2) (baseEnvMap procEnv)
  merged.map (fun kv => kv.1 ++ "=" ++ kv.2)

namespace Witness

/-! ## Witness supervisor — src/unnamed/part_002 lines 342–621.

The backend and every external collaborator (config resolution, beads role
config, command templating) are oracle fields of `StartEnv`; `Start` returns
the Go result together with the ordered trace of backend session operations it
performed. -/

/-- Backend session operations recorded by the `Start` trace. -/
inductive Action where
  | killSession (name : String)
  | newSessionWithCommand (name workDir command : String)
  | setEnvironment (name key value : String)
  | killSessionWithProcesses (name : String)
deriving DecidableEq, Repr

/-- The fields of `beads.RoleConfig` read by `Start` and
`buildWitnessStartCommand`. -/
structure RoleCfg where
  startCommand : String
  envVars : List (String × String)
deriving DecidableEq, Repr

/-- Extended (tmux-only) capabilities probed by `Start`
(`session.TmuxExtras`): the oracle outcomes of `WaitForCommand` and
`AcceptBypassPermissionsWarning`. -/
structure ExtrasEnv where
  waitErr : Option GoError
  bypassErr : Option GoError
deriving DecidableEq, Repr

/-- Oracles consumed by one `Manager.Start` invocation: backend probe
outcomes, collaborator results, and the resolved names. -/
structure StartEnv where
  /-- Oracle for `m.SessionName()`. -/
  sessionID : String
  /-- Oracle for `m.witnessDir()`. -/
  witnessDir : String
  /-- Outcome of `t.HasSession sessionID` (bool, error). -/
  hasSession : Bool × Option GoError
  /-- Outcome of `t.IsAgentAlive sessionID`. -/
  isAgentAlive : Bool
  /-- Outcome of `t.KillSession sessionID`. -/
  killErr : Option GoError
  /-- Outcome of `runtime.EnsureSettingsForRole …`. -/
  settingsErr : Option GoError
  /-- Outcome of `rig.EnsureGitignorePatterns` (best-effort: warn only). -/
  gitignoreErr : Option GoError
  /-- Outcome of `bd.GetRoleConfig(beads.RoleBeadIDTown("witness"))`. -/
  getRoleConfig : Except GoError RoleCfg
  /-- Collaborator `beads.ExpandRolePattern` as a pure oracle. -/
  expand : String → String
  /-- Outcome of `config.BuildStartupCommandFromConfig …`. -/
  buildCommandRes : Except GoError String
  /-- Outcome of `t.NewSessionWithCommand sessionID witnessDir command`. -/
  createErr : Option GoError
  /-- Collaborator result `config.AgentEnv …` as a list of pairs. -/
  agentEnv : List (String × String)
  /-- Collaborator result `roleConfigEnvVars(roleConfig, …)` as a list of pairs. -/
  roleEnv : List (String × String)
  /-- Probe `t.(session.TmuxExtras)`: `some` when the backend has the extended
  capabilities, `none` otherwise. -/
  extras : Option ExtrasEnv

/-- Source `m.roleConfig()` — part_002 lines 553–562: wrap a `GetRoleConfig` failure
as `loading witness role config: %w`. -/
def roleConfig (e : StartEnv) : Except GoError RoleCfg :=
  match e.getRoleConfig with
  | .error err =>
    .error (.wrap ("loading witness role config: " ++ errText err) err)
  | .ok rc => .ok rc

/-- Source `buildWitnessStartCommand` — part_002 lines 583–607.  An agent override
discards the role config; a non-empty role-config start command is expanded
and used; otherwise the templated startup command collaborator decides, its
failure wrapped as `building startup command: %w`. -/
def buildWitnessStartCommand (e : StartEnv) (agentOverride : String)
    (rc0 : Option RoleCfg) : Except GoError String :=
  match (if agentOverride != "" then none else rc0) with
  | some cfg =>
    if cfg.startCommand != "" then .ok (e.expand cfg.startCommand)
    else
      match e.buildCommandRes with
      | .error err =>
        .error (.wrap ("building startup command: " ++ errText err) err)
      | .ok c => .ok c
  | none =>
    match e.buildCommandRes with
    | .error err =>
      .error (.wrap ("building startup command: " ++ errText err) err)
    | .ok c => .ok c

/-- The best-effort `SetEnvironment` calls of `Start` (part_002 lines
500–520): agent env, then role-config env, then the `KEY=VALUE` CLI overrides
(entries without `'='` are skipped).  Every error is discarded. -/
def envSetActions (e : StartEnv) (envOverrides : List String) : List Action :=
  (e.agentEnv.map (fun kv => Action.setEnvironment e.sessionID kv.1 kv.2)) ++
  (e.roleEnv.map (fun kv => Action.setEnvironment e.sessionID kv.1 kv.2)) ++
  (envOverrides.filterMap (fun ov =>
    match cutEq ov with
    | some kv => some (Action.setEnvironment e.sessionID kv.1 kv.2)
    | none => none))

/-- The tail of `Start` after the existence/zombie guard (part_002 lines
460–550): settings, role config, startup command, session creation, env
application, extended capabilities (or the fixed settle delay), final result.
`acts` is the action trace accumulated by the guard. -/
def startAfterGuard (e : StartEnv) (agentOverride : String)
    (envOverrides : List String) (acts : List Action) :
    Option GoError × List Action :=
  match e.settingsErr with
  | some err =>
    (some (.wrap ("ensuring runtime settings: " ++ errText err) err), acts)
  | none =>
  match roleConfig e with
  | .error err => (some err, acts)
  | .ok rc =>
  match buildWitnessStartCommand e agentOverride (some rc) with
  | .error err => (some err, acts)
  | .ok command =>
  let acts := acts ++
    [Action.newSessionWithCommand e.sessionID e.witnessDir command]
  match e.createErr with
  | some err => (some (.wrap ("creating session: " ++ errText err) err), acts)
  | none =>
  let acts := acts ++ envSetActions e envOverrides
  match e.extras with
  | some ex =>
    match ex.waitErr with
    | some err =>
      (some (.wrap ("waiting for witness to start: " ++ errText err) err),
        acts ++ [Action.killSessionWithProcesses e.sessionID])
    | none => (none, acts)
  | none => (none, acts)

/-- Source `Manager.Start` — part_002 lines 435–551.  Returns the Go result and the
ordered trace of backend session operations.  The deprecated foreground mode
fails before touching the backend; otherwise the existence/zombie guard runs:
a healthy existing session fails with `ErrAlreadyRunning`, a zombie one is
killed first, and both the no-session and killed-zombie paths fall through to
creation. -/
def Start (e : StartEnv) (foreground : Bool) (agentOverride : String)
    (envOverrides : List String) : Option GoError × List Action :=
  if foreground then
    (some (.errorf
      "foreground mode is deprecated; use background mode (remove --foreground flag)"),
      [])
  else
    let running := e.hasSession.1
    if running then
      if e.isAgentAlive then (some .alreadyRunning, [])
      else
        match e.killErr with
        | some err =>
          (some (.wrap ("killing zombie session: " ++ errText err) err),
            [Action.killSession e.sessionID])
        | none =>
          startAfterGuard e agentOverride envOverrides
            [Action.killSession e.sessionID]
    else
      startAfterGuard e agentOverride envOverrides []

end Witness

/-! ## Shared lemmas -/

theorem hasPrefixL_iff (p s : List Char) : hasPrefixL p s = true ↔ p <+: s := by
  induction p generalizing s with
  | nil => simp [hasPrefixL, List.nil_prefix]
  | cons a ps ih =>
    cases s with
    | nil => simp [hasPrefixL]
    | cons c cs =>
      simp [hasPrefixL, List.cons_prefix_cons, ih, Bool.and_eq_true, beq_iff_eq]

theorem hasInfixL_iff (s pat : List Char) : hasInfixL s pat = true ↔ pat <:+: s := by
  induction s with
  | nil =>
    rw [hasInfixL]
    simp [hasPrefixL_iff]
  | cons c cs ih =>
    rw [hasInfixL]
    simp [Bool.or_eq_true, hasPrefixL_iff, ih, List.infix_cons_iff]

theorem goContains_of_parts (s pre pat post : String)
    (h : s.toList = pre.toList ++ pat.toList ++ post.toList) :
    goContains s pat = true := by
  unfold goContains
  rw [hasInfixL_iff, h]
  exact List.infix_append _ _ _

theorem goContains_mid (a b c : String) : goContains (a ++ b ++ c) b = true :=
  goContains_of_parts _ a b c (by simp [String.toList, String.data_append])

theorem goContains_two (a b : String) : goContains (a ++ b) b = true :=
  goContains_of_parts _ a b "" (by simp [String.toList, String.data_append])

theorem goContains_quote (a s c : String) :
    goContains (a ++ goQuote s ++ c) s = true :=
  goContains_of_parts _ (a ++ "\"") s ("\"" ++ c)
    (by simp [goQuote, String.toList, String.data_append])

theorem errIs_self (e : GoError) : errIs e e = true := by
  cases e <;> simp [errIs]

theorem errIs_wrap (t : String) (inner target : GoError)
    (h : errIs inner target = true) : errIs (.wrap t inner) target = true := by
  rw [errIs]
  simp [h]

/-! ## Claim theorems -/

/-- C1: `CheckSessionHealth` classifies in priority order: a failed info probe
(session does not exist) yields `SessionDead`; an existing session whose
hosted process is not alive yields `AgentDead`; an alive process with a
positive `maxInactivity` threshold exceeded by the reported idle duration
yields `AgentHung`; otherwise `SessionHealthy`. -/
theorem checkSessionHealth_classification
    (infoRes : Except GoError SessionInfo) (maxInactivity : Duration) :
    (∀ err, infoRes = .error err →
      Amux.CheckSessionHealth infoRes maxInactivity = .sessionDead) ∧
    (∀ info, infoRes = .ok info → info.alive = false →
      Amux.CheckSessionHealth infoRes maxInactivity = .agentDead) ∧
    (∀ info, infoRes = .ok info → info.alive = true →
      maxInactivity > 0 → (maxInactivity : ℚ) < idleDuration info →
      Amux.CheckSessionHealth infoRes maxInactivity = .agentHung) ∧
    (∀ info, infoRes = .ok info → info.alive = true →
      ¬(maxInactivity > 0 ∧ (maxInactivity : ℚ) < idleDuration info) →
      Amux.CheckSessionHealth infoRes maxInactivity = .sessionHealthy) := by
  refine ⟨?_, ?_, ?_, ?_⟩
  · rintro err rfl
    rfl
  · rintro info rfl h
    simp [Amux.CheckSessionHealth, h]
  · rintro info rfl ha h0 hi
    simp [Amux.CheckSessionHealth, ha, h0, hi]
  · rintro info rfl ha hn
    rw [not_and_or] at hn
    rcases hn with hn | hn <;>
      simp [Amux.CheckSessionHealth, ha, hn]

/-- Witness for C1: a dead probe, a dead agent, a hung agent (idle 1 s against
a 5 ns threshold) and a healthy agent, at concrete inputs. -/
theorem checkSessionHealth_classification_witness :
    Amux.CheckSessionHealth (.error .sessionNotFound) 5 = .sessionDead ∧
    Amux.CheckSessionHealth (.ok ⟨"w", "claude", 7, false, "t0", 3, "t1", 0⟩) 5 =
      .agentDead ∧
    Amux.CheckSessionHealth (.ok ⟨"w", "claude", 7, true, "t0", 3, "t1", 1⟩) 5 =
      .agentHung ∧
    Amux.CheckSessionHealth (.ok ⟨"w", "claude", 7, true, "t0", 3, "t1", 1⟩) 0 =
      .sessionHealthy :=
  ⟨(checkSessionHealth_classification (.error .sessionNotFound) 5).1 _ rfl,
   (checkSessionHealth_classification _ 5).2.1 _ rfl rfl,
   (checkSessionHealth_classification _ 5).2.2.1 _ rfl rfl (by decide)
     (by norm_num [idleDuration, secondNs]),
   (checkSessionHealth_classification _ 0).2.2.2 _ rfl rfl
     (by norm_num [idleDuration, secondNs])⟩

/-- C3 counterexample: the claim "any failure of the existence probe yields
`(false, nil)`" is false for the part_002 `HasSession`: an unclassified probe
failure (e.g. the classifier's verbatim-stderr error) is propagated to the
caller, not swallowed. -/
theorem hasSession_propagates_counterexample :
    AmuxNoSend.HasSession (some (.errorf "amux has: boom")) ≠ (false, none) := by
  decide

/-- C3 (amended): the current adapter's `HasSession` treats any probe failure
as "does not exist" and yields `(false, nil)`; the part_002 variant yields
`(false, nil)` exactly for not-found and daemon-unavailable failures and
propagates every other probe failure as `(false, err)`.  A successful probe
yields `(true, nil)` in both. -/
theorem hasSession_errors_spec (probe : Option GoError) :
    (∀ err, probe = some err → Amux.HasSession probe = (false, none)) ∧
    Amux.HasSession none = (true, none) ∧
    (∀ err, probe = some err →
      (errIs err .sessionNotFound || errIs err .noDaemon) = true →
      AmuxNoSend.HasSession probe = (false, none)) ∧
    (∀ err, probe = some err →
      (errIs err .sessionNotFound || errIs err .noDaemon) = false →
      AmuxNoSend.HasSession probe = (false, some err)) ∧
    AmuxNoSend.HasSession none = (true, none) := by
  refine ⟨?_, rfl, ?_, ?_, rfl⟩
  · rintro err rfl
    rfl
  · rintro err rfl h
    simp [AmuxNoSend.HasSession, h]
  · rintro err rfl h
    simp [AmuxNoSend.HasSession, h]

/-- Witness for C3 (amended): concrete probes — a classified not-found
failure is swallowed by both variants; an unclassified failure is swallowed by
the current variant and propagated by the part_002 variant. -/
theorem hasSession_errors_spec_witness :
    Amux.HasSession (some (.errorf "amux has: boom")) = (false, none) ∧
    AmuxNoSend.HasSession (some .sessionNotFound) = (false, none) ∧
    AmuxNoSend.HasSession (some (.errorf "amux has: boom")) =
      (false, some (.errorf "amux has: boom")) :=
  ⟨(hasSession_errors_spec (some (.errorf "amux has: boom"))).1 _ rfl,
   (hasSession_errors_spec (some .sessionNotFound)).2.2.1 _ rfl (by decide),
   (hasSession_errors_spec (some (.errorf "amux has: boom"))).2.2.2.1 _ rfl
     (by decide)⟩

/-- C4: `wrapError` classifies a failed subprocess by substring-matching the
trimmed stderr, in order with first match winning: daemon-unreachable phrases
map to `ErrNoDaemon`; then "already exists" to `ErrSessionExists`; then
"not found" / "no such session" to `ErrSessionNotFound`; an unmatched
non-empty stderr yields an error whose text contains the invoked subcommand
and the stderr text verbatim; an empty (trimmed) stderr wraps the original
process error. -/
theorem wrapError_classification (procErr : GoError) (stderr0 : String)
    (args : List String) :
    ((goContains (goTrim stderr0) "daemon not running" ||
        goContains (goTrim stderr0) "connection refused" ||
        goContains (goTrim stderr0) "no such file or directory") = true →
      wrapError procErr stderr0 args = .noDaemon) ∧
    ((goContains (goTrim stderr0) "daemon not running" ||
        goContains (goTrim stderr0) "connection refused" ||
        goContains (goTrim stderr0) "no such file or directory") = false →
      goContains (goTrim stderr0) "already exists" = true →
      wrapError procErr stderr0 args = .sessionExists) ∧
    ((goContains (goTrim stderr0) "daemon not running" ||
        goContains (goTrim stderr0) "connection refused" ||
        goContains (goTrim stderr0) "no such file or directory") = false →
      goContains (goTrim stderr0) "already exists" = false →
      (goContains (goTrim stderr0) "not found" ||
        goContains (goTrim stderr0) "no such session") = true →
      wrapError procErr stderr0 args = .sessionNotFound) ∧
    ((goContains (goTrim stderr0) "daemon not running" ||
        goContains (goTrim stderr0) "connection refused" ||
        goContains (goTrim stderr0) "no such file or directory") = false →
      goContains (goTrim stderr0) "already exists" = false →
      (goContains (goTrim stderr0) "not found" ||
        goContains (goTrim stderr0) "no such session") = false →
      goTrim stderr0 ≠ "" →
      wrapError procErr stderr0 args =
        .errorf ("amux " ++ args.headD "" ++ ": " ++ goTrim stderr0) ∧
      goContains (errText (wrapError procErr stderr0 args)) (args.headD "") = true ∧
      goContains (errText (wrapError procErr stderr0 args)) (goTrim stderr0) = true) ∧
    ((goContains (goTrim stderr0) "daemon not running" ||
        goContains (goTrim stderr0) "connection refused" ||
        goContains (goTrim stderr0) "no such file or directory") = false →
      goContains (goTrim stderr0) "already exists" = false →
      (goContains (goTrim stderr0) "not found" ||
        goContains (goTrim stderr0) "no such session") = false →
      goTrim stderr0 = "" →
      wrapError procErr stderr0 args =
        .wrap ("amux " ++ args.headD "" ++ ": " ++ errText procErr) procErr ∧
      errIs (wrapError procErr stderr0 args) procErr = true) := by
  refine ⟨?_, ?_, ?_, ?_, ?_⟩
  · intro h1
    simp only [wrapError, Bool.or_eq_true] at h1 ⊢
    rw [if_pos (by simpa [Bool.or_eq_true] using h1)]
  · intro h1 h2
    simp only [wrapError]
    rw [if_neg (by simp [Bool.or_eq_true] at h1 ⊢; tauto), if_pos h2]
  · intro h1 h2 h3
    simp only [wrapError]
    rw [if_neg (by simp [Bool.or_eq_true] at h1 ⊢; tauto), if_neg (by simp [h2]),
      if_pos (by simpa [Bool.or_eq_true] using h3)]
  · intro h1 h2 h3 h4
    have hres : wrapError procErr stderr0 args =
        .errorf ("amux " ++ args.headD "" ++ ": " ++ goTrim stderr0) := by
      simp only [wrapError]
      rw [if_neg (by simp [Bool.or_eq_true] at h1 ⊢; tauto), if_neg (by simp [h2]),
        if_neg (by simp [Bool.or_eq_true] at h3 ⊢; tauto), if_pos (by simpa using h4)]
    refine ⟨hres, ?_, ?_⟩
    · rw [hres]
      exact goContains_of_parts _ "amux " (args.headD "") (": " ++ goTrim stderr0)
        (by simp [errText, String.toList, String.data_append])
    · rw [hres]
      show goContains ("amux " ++ args.headD "" ++ ": " ++ goTrim stderr0) _ = true
      exact goContains_of_parts _ ("amux " ++ args.headD "" ++ ": ") (goTrim stderr0)
        ""  (by simp [String.toList, String.data_append])
  · intro h1 h2 h3 h4
    have hres : wrapError procErr stderr0 args =
        .wrap ("amux " ++ args.headD "" ++ ": " ++ errText procErr) procErr := by
      simp only [wrapError]
      rw [if_neg (by simp [Bool.or_eq_true] at h1 ⊢; tauto), if_neg (by simp [h2]),
        if_neg (by simp [Bool.or_eq_true] at h3 ⊢; tauto), if_neg (by simp [h4])]
    exact ⟨hres, by rw [hres]; exact errIs_wrap _ _ _ (errIs_self procErr)⟩

/-- Witness for C4: the four phrase classes, the verbatim-stderr case (whose
text contains the subcommand `kill` and the stderr), and the empty-stderr
wrap, at concrete inputs. -/
theorem wrapError_classification_witness :
    wrapError (.errorf "exit status 1") " daemon not running\n" ["ls"] =
      .noDaemon ∧
    wrapError (.errorf "exit status 1") "session already exists" ["new"] =
      .sessionExists ∧
    wrapError (.errorf "exit status 1") "no such session" ["has"] =
      .sessionNotFound ∧
    wrapError (.errorf "exit status 1") "boom" ["kill", "-t", "s1"] =
      .errorf ("amux " ++ ["kill", "-t", "s1"].headD "" ++ ": " ++ goTrim "boom") ∧
    errIs (wrapError (.errorf "exit status 1") "" ["new"]) (.errorf "exit status 1") =
      true :=
  ⟨(wrapError_classification (.errorf "exit status 1") " daemon not running\n"
      ["ls"]).1 (by decide),
   (wrapError_classification (.errorf "exit status 1") "session already exists"
      ["new"]).2.1 (by decide) (by decide),
   (wrapError_classification (.errorf "exit status 1") "no such session"
      ["has"]).2.2.1 (by decide) (by decide) (by decide),
   ((wrapError_classification (.errorf "exit status 1") "boom"
      ["kill", "-t", "s1"]).2.2.2.1 (by decide) (by decide) (by decide)
      (by decide)).1,
   ((wrapError_classification (.errorf "exit status 1") "" ["new"]).2.2.2.2
      (by decide) (by decide) (by decide) (by decide)).2⟩

/-- C5 counterexample: the claim is false for the `ls`-based `IsAgentRunning`
variants (amux.go second segment / part_002): with expected command substring
`"claude"` supplied and a daemon state whose only session descriptor is
`{name := "gt-witness", command := "/bin/zsh", alive := false}`, the
`ls`-based variant still reports `true` (it only checks that the name is
listed), while the descriptor is neither alive nor running any expected
command — as the info-based variant of the same daemon state confirms. -/
theorem isAgentRunning_ls_ignores_commands :
    AmuxLs.IsAgentRunning (.ok ["gt-witness"]) "gt-witness" ["claude"] = true ∧
    Amux.IsAgentRunning
      (.ok ⟨"gt-witness", "/bin/zsh", 7, false, "t0", 3, "t1", 0⟩) ["claude"] =
      false := by
  constructor
  · rfl
  · rfl

/-- C5 (amended): with a non-empty expected-command list, the info-based
`IsAgentRunning` (current amux.go) returns true exactly when the info probe
succeeds, the hosted process reports alive, and the hosted command contains at
least one expected substring; the `ls`-based variants (amux.go second segment
and part_002) ignore both liveness and the expected substrings and return true
exactly when the session name appears in the listing. -/
theorem isAgentRunning_variants_spec (infoRes : Except GoError SessionInfo)
    (lsRes : Except GoError (List String)) (session : String)
    (expected : List String) (hne : expected ≠ []) :
    (Amux.IsAgentRunning infoRes expected = true ↔
      ∃ info, infoRes = .ok info ∧ info.alive = true ∧
        ∃ cmd ∈ expected, goContains info.command cmd = true) ∧
    (AmuxLs.IsAgentRunning lsRes session expected = true ↔
      ∃ names, lsRes = .ok names ∧ session ∈ names) := by
  constructor
  · cases infoRes with
    | error e => simp [Amux.IsAgentRunning]
    | ok info =>
      cases halive : info.alive with
      | false => simp [Amux.IsAgentRunning, halive]
      | true =>
        have hempty : expected.isEmpty = false := by
          cases expected with
          | nil => exact absurd rfl hne
          | cons a l => rfl
        simp [Amux.IsAgentRunning, halive, hempty, List.any_eq_true]
  · cases lsRes with
    | error e => simp [AmuxLs.IsAgentRunning]
    | ok names =>
      simp [AmuxLs.IsAgentRunning, List.any_eq_true, beq_iff_eq]

/-- Witness for C5 (amended): a live claude session is "running" for the
info-based variant; a listed session is "running" for the ls-based variant. -/
theorem isAgentRunning_variants_spec_witness :
    Amux.IsAgentRunning
      (.ok ⟨"gt-witness", "claude --bypass", 7, true, "t0", 3, "t1", 0⟩)
      ["claude"] = true ∧
    AmuxLs.IsAgentRunning (.ok ["a", "gt-witness"]) "gt-witness" ["claude"] =
      true :=
  ⟨(isAgentRunning_variants_spec
      (.ok ⟨"gt-witness", "claude --bypass", 7, true, "t0", 3, "t1", 0⟩)
      (.ok ["a", "gt-witness"]) "gt-witness" ["claude"] (by decide)).1.mpr
      ⟨_, rfl, rfl, "claude", by decide, by decide⟩,
   (isAgentRunning_variants_spec
      (.ok ⟨"gt-witness", "claude --bypass", 7, true, "t0", 3, "t1", 0⟩)
      (.ok ["a", "gt-witness"]) "gt-witness" ["claude"] (by decide)).2.mpr
      ⟨["a", "gt-witness"], rfl, by decide⟩⟩

/-- C6 counterexample: the claim "the error names both the session and the
attempted text" is false: `SendKeys("s1", "hello")` produces an error whose
text names the session but nowhere contains the attempted text `"hello"`. -/
theorem sendKeys_text_missing_counterexample :
    AmuxNoSend.SendKeys "s1" "hello" =
      some (.wrap
        "amux send not yet available (reverted); see gt-1nr: SendKeys(\"s1\")"
        .sendKeysNotSupport) ∧
    goContains
      "amux send not yet available (reverted); see gt-1nr: SendKeys(\"s1\")"
      "hello" = false := by
  constructor
  · decide
  · decide

/-- C6 (amended): on the part_002 adapter (no keystroke support), `SendKeys`
always fails — never returns nil — with an error satisfying
`errors.Is(err, ErrSendKeysNotSupport)` whose text names the operation
(`SendKeys`) and the session; the attempted text is not included. -/
theorem sendKeys_unsupported_spec (session keys : String) :
    ∃ e, AmuxNoSend.SendKeys session keys = some e ∧
      errIs e .sendKeysNotSupport = true ∧
      goContains (errText e) session = true ∧
      goContains (errText e) "SendKeys" = true ∧
      AmuxNoSend.SendKeys session keys ≠ none := by
  refine ⟨_, rfl, ?_, ?_, ?_, by simp [AmuxNoSend.SendKeys]⟩
  · exact errIs_wrap _ _ _ (errIs_self _)
  · show goContains (errText .sendKeysNotSupport ++ ": SendKeys(" ++
      goQuote session ++ ")") session = true
    exact goContains_quote (errText .sendKeysNotSupport ++ ": SendKeys(")
      session ")"
  · show goContains (errText .sendKeysNotSupport ++ ": SendKeys(" ++
      goQuote session ++ ")") "SendKeys" = true
    refine goContains_of_parts _ (errText .sendKeysNotSupport ++ ": ") "SendKeys"
      ("(" ++ goQuote session ++ ")") ?_
    simp [errText, goQuote, String.toList, String.data_append]

/-- C10: on the amux adapters, `IsAgentAlive` returns exactly the boolean that
`HasSession` reports — it is a pure existence check with no liveness input —
so for a zombie state (existence probe succeeds, hosted process reports
`alive = false`) `IsAgentAlive` is true while `CheckSessionHealth` of the same
state reports `AgentDead`. -/
theorem isAgentAlive_refines_hasSession (hasProbe : Option GoError)
    (info : SessionInfo) (m : Duration) (halive : info.alive = false) :
    Amux.IsAgentAlive hasProbe = (Amux.HasSession hasProbe).1 ∧
    AmuxNoSend.IsAgentAlive hasProbe = (AmuxNoSend.HasSession hasProbe).1 ∧
    Amux.IsAgentAlive none = true ∧
    Amux.CheckSessionHealth (.ok info) m = .agentDead := by
  refine ⟨?_, ?_, rfl, ?_⟩
  · cases hasProbe <;> rfl
  · cases hasProbe with
    | none => rfl
    | some err =>
      simp only [AmuxNoSend.IsAgentAlive, AmuxNoSend.HasSession]
      split <;> simp
  · simp [Amux.CheckSessionHealth, halive]

/-- Witness for C10: the zombie state — existence probe succeeds, hosted
process dead — is alive for `IsAgentAlive` and `AgentDead` for
`CheckSessionHealth`; and a failing probe agrees with `HasSession`. -/
theorem isAgentAlive_refines_hasSession_witness :
    Amux.IsAgentAlive (some .noDaemon) = (Amux.HasSession (some .noDaemon)).1 ∧
    Amux.IsAgentAlive none = true ∧
    Amux.CheckSessionHealth (.ok ⟨"w", "claude", 7, false, "t0", 3, "t1", 0⟩) 0 =
      .agentDead :=
  ⟨(isAgentAlive_refines_hasSession (some .noDaemon)
      ⟨"w", "claude", 7, false, "t0", 3, "t1", 0⟩ 0 rfl).1,
   (isAgentAlive_refines_hasSession (some .noDaemon)
      ⟨"w", "claude", 7, false, "t0", 3, "t1", 0⟩ 0 rfl).2.2.1,
   (isAgentAlive_refines_hasSession (some .noDaemon)
      ⟨"w", "claude", 7, false, "t0", 3, "t1", 0⟩ 0 rfl).2.2.2⟩

/-- C8: the per-session nudge lock: acquiring a free slot succeeds; acquiring
a held slot fails after the timeout with no side effect; releasing a held slot
frees it; releasing a free slot is a no-op; and after a release a subsequent
acquire succeeds. -/
theorem nudgeLock_spec (st : LockState) (session : String) (t1 t2 : Duration) :
    (st session = false → (acquireNudgeLock st session t1).1 = true) ∧
    (st session = true → acquireNudgeLock st session t1 = (false, st)) ∧
    (st session = true → releaseNudgeLock st session session = false) ∧
    (st session = false → ∀ x, releaseNudgeLock st session x = st x) ∧
    (acquireNudgeLock (releaseNudgeLock st session) session t2).1 = true := by
  refine ⟨?_, ?_, ?_, ?_, ?_⟩
  · intro h
    simp [acquireNudgeLock, h]
  · intro h
    simp [acquireNudgeLock, h]
  · intro h
    simp [releaseNudgeLock]
  · intro h x
    unfold releaseNudgeLock
    by_cases hx : x = session
    · subst hx
      simp [h]
    · simp [hx]
  · unfold acquireNudgeLock releaseNudgeLock
    simp

/-- Witness for C8: a concrete held slot and a concrete free slot. -/
theorem nudgeLock_spec_witness :
    (acquireNudgeLock (fun _ => false) "s1" 100).1 = true ∧
    acquireNudgeLock (fun x => x == "s1") "s1" 1 =
      (false, fun x => x == "s1") ∧
    releaseNudgeLock (fun x => x == "s1") "s1" "s1" = false ∧
    (acquireNudgeLock (releaseNudgeLock (fun x => x == "s1") "s1") "s1" 100).1 =
      true :=
  ⟨(nudgeLock_spec (fun _ => false) "s1" 100 100).1 rfl,
   (nudgeLock_spec (fun x => x == "s1") "s1" 1 1).2.1 (by decide),
   (nudgeLock_spec (fun x => x == "s1") "s1" 1 1).2.2.1 (by decide),
   (nudgeLock_spec (fun x => x == "s1") "s1" 100 100).2.2.2.2⟩

/-- C7: `NudgeSession` under the sequential lock model: when the session's
slot is held (acquisition times out — the default timeout being 30 s), it
returns a dedicated error naming the session and the timeout condition,
delivers nothing and leaves the lock state unchanged; when the slot is free,
it delivers via `SendKeys`, returns the delivery result (including a delivery
failure), and the deferred release leaves the session's slot free on every
exit path while other sessions' slots are untouched. -/
theorem nudgeSession_spec (st : LockState) (sendRes : Option GoError)
    (session message : String) :
    nudgeLockTimeout = 30 * secondNs ∧
    (st session = true →
      ∃ e, NudgeSession st sendRes session message = (some e, st, false) ∧
        goContains (errText e) session = true ∧
        goContains (errText e) "nudge lock timeout" = true) ∧
    (st session = false →
      (NudgeSession st sendRes session message).1 = sendRes ∧
      (NudgeSession st sendRes session message).2.2 = true ∧
      (NudgeSession st sendRes session message).2.1 session = false ∧
      ∀ x, x ≠ session → (NudgeSession st sendRes session message).2.1 x = st x) := by
  refine ⟨rfl, ?_, ?_⟩
  · intro h
    refine ⟨.errorf ("nudge lock timeout for session " ++ goQuote session ++
      ": previous nudge may be hung"), ?_, ?_, ?_⟩
    · simp [NudgeSession, acquireNudgeLock, h]
    · exact goContains_quote "nudge lock timeout for session " session
        ": previous nudge may be hung"
    · have hsplit : ("nudge lock timeout for session " : String) =
          "nudge lock timeout" ++ " for session " := by decide
      show goContains ("nudge lock timeout for session " ++ goQuote session ++
        ": previous nudge may be hung") "nudge lock timeout" = true
      rw [hsplit]
      refine goContains_of_parts _ "" "nudge lock timeout"
        (" for session " ++ goQuote session ++ ": previous nudge may be hung") ?_
      simp [goQuote, String.toList, String.data_append]
  · intro h
    refine ⟨?_, ?_, ?_, ?_⟩
    · simp [NudgeSession, acquireNudgeLock, h]
    · simp [NudgeSession, acquireNudgeLock, h]
    · simp [NudgeSession, acquireNudgeLock, releaseNudgeLock, h]
    · intro x hx
      simp [NudgeSession, acquireNudgeLock, releaseNudgeLock, h, hx]

/-- Witness for C7: a held slot times out with the dedicated error and no
delivery; a free slot delivers (here the delivery itself fails) and the slot
is free afterwards. -/
theorem nudgeSession_spec_witness :
    (∃ e, NudgeSession (fun x => x == "s1") none "s1" "hi" =
      (some e, fun x => x == "s1", false) ∧
      goContains (errText e) "s1" = true ∧
      goContains (errText e) "nudge lock timeout" = true) ∧
    (NudgeSession (fun _ => false) (some .sessionNotFound) "s1" "hi").1 =
      some .sessionNotFound ∧
    (NudgeSession (fun _ => false) (some .sessionNotFound) "s1" "hi").2.1 "s1" =
      false :=
  ⟨(nudgeSession_spec (fun x => x == "s1") none "s1" "hi").2.1 (by decide),
   ((nudgeSession_spec (fun _ => false) (some .sessionNotFound) "s1" "hi").2.2
      rfl).1,
   ((nudgeSession_spec (fun _ => false) (some .sessionNotFound) "s1" "hi").2.2
      rfl).2.2.1⟩

/-! ### Association-map lemmas for `buildEnv` -/

theorem lookupKey_upsert (l : List (String × String)) (k v k' : String) :
    lookupKey (upsert l k v) k' = if k' = k then some v else lookupKey l k' := by
  induction l with
  | nil =>
    simp only [upsert, lookupKey]
    by_cases h : k' = k
    · subst h
      simp
    · rw [if_neg (fun hh => h hh.symm), if_neg h]
  | cons hd tl ih =>
    by_cases h1 : hd.1 = k
    · by_cases h2 : k' = k
      · subst h2
        simp [upsert, h1, lookupKey]
      · simp [upsert, lookupKey, h1, h2, Ne.symm h2]
    · simp only [upsert, if_neg h1, lookupKey, ih]
      by_cases h2 : k' = k
      · subst h2
        simp [h1]
      · simp [h2]

theorem mem_keys_upsert (l : List (String × String)) (k v x : String)
    (hx : x ∈ (upsert l k v).map Prod.fst) :
    x ∈ l.map Prod.fst ∨ x = k := by
  induction l with
  | nil =>
    simp [upsert] at hx
    exact Or.inr hx
  | cons hd tl ih =>
    by_cases h1 : hd.1 = k
    · simp [upsert, h1] at hx
      rcases hx with hx | hx
      · exact Or.inr hx
      · exact Or.inl (by simp [hx])
    · simp [upsert, h1] at hx
      rcases hx with hx | ⟨b, hb⟩
      · exact Or.inl (by simp [hx])
      · rcases ih (List.mem_map.mpr ⟨(x, b), hb, rfl⟩) with h | h
        · exact Or.inl (by simp at h ⊢; tauto)
        · exact Or.inr h

theorem nodupKeys_upsert (l : List (String × String)) (k v : String)
    (h : (l.map Prod.fst).Nodup) : ((upsert l k v).map Prod.fst).Nodup := by
  induction l with
  | nil => simp [upsert]
  | cons hd tl ih =>
    simp only [List.map_cons, List.nodup_cons] at h
    by_cases h1 : hd.1 = k
    · simp only [upsert, if_pos h1, List.map_cons, List.nodup_cons]
      exact ⟨h1 ▸ h.1, h.2⟩
    · simp only [upsert, if_neg h1, List.map_cons, List.nodup_cons]
      refine ⟨?_, ih h.2⟩
      intro hmem
      rcases mem_keys_upsert tl k v hd.1 hmem with hm | hm
      · exact h.1 hm
      · exact h1 hm

theorem lookupKey_foldl_of_not_mem :
    ∀ (ps m : List (String × String)) (k : String), k ∉ ps.map Prod.fst →
    lookupKey (ps.foldl (fun m kv => upsert m kv.1 kv.2) m) k = lookupKey m k
  | [], _, _, _ => rfl
  | hd :: tl, m, k, h => by
    simp only [List.map_cons, List.mem_cons, not_or] at h
    simp only [List.foldl_cons]
    rw [lookupKey_foldl_of_not_mem tl _ k h.2, lookupKey_upsert, if_neg h.1]

theorem lookupKey_foldl_of_mem :
    ∀ (ps m : List (String × String)) (k v : String),
    (ps.map Prod.fst).Nodup → (k, v) ∈ ps →
    lookupKey (ps.foldl (fun m kv => upsert m kv.1 kv.2) m) k = some v
  | [], _, _, _, _, hmem => by simp at hmem
  | hd :: tl, m, k, v, hnd, hmem => by
    simp only [List.map_cons, List.nodup_cons] at hnd
    simp only [List.foldl_cons]
    rcases List.mem_cons.mp hmem with heq | hmem'
    · cases heq
      rw [lookupKey_foldl_of_not_mem tl _ k (by simpa using hnd.1),
        lookupKey_upsert]
      simp
    · exact lookupKey_foldl_of_mem tl _ k v hnd.2 hmem'

theorem mem_keys_foldl :
    ∀ (ps m : List (String × String)) (x : String),
    x ∈ (ps.foldl (fun m kv => upsert m kv.1 kv.2) m).map Prod.fst →
    x ∈ m.map Prod.fst ∨ x ∈ ps.map Prod.fst
  | [], _, _, h => Or.inl h
  | hd :: tl, m, x, h => by
    simp only [List.foldl_cons] at h
    rcases mem_keys_foldl tl _ x h with h1 | h1
    · rcases mem_keys_upsert m hd.1 hd.2 x h1 with h2 | h2
      · exact Or.inl h2
      · exact Or.inr (by simp [h2])
    · exact Or.inr (by simp at h1 ⊢; tauto)

theorem nodupKeys_foldl :
    ∀ (ps m : List (String × String)), (m.map Prod.fst).Nodup →
    ((ps.foldl (fun m kv => upsert m kv.1 kv.2) m).map Prod.fst).Nodup
  | [], _, h => h
  | hd :: tl, m, h => by
    simp only [List.foldl_cons]
    exact nodupKeys_foldl tl _ (nodupKeys_upsert m hd.1 hd.2 h)

theorem lookupKey_eq_some_iff :
    ∀ (l : List (String × String)) (k v : String), (l.map Prod.fst).Nodup →
    (lookupKey l k = some v ↔ (k, v) ∈ l)
  | [], k, v, _ => by simp [lookupKey]
  | hd :: tl, k, v, hnd => by
    simp only [List.map_cons, List.nodup_cons] at hnd
    rw [lookupKey]
    by_cases h : hd.1 = k
    · rw [if_pos h]
      constructor
      · intro hv
        have hv' : hd.2 = v := Option.some.inj hv
        have hhd : (k, v) = hd := by
          rw [← h, ← hv']
        exact List.mem_cons.mpr (Or.inl hhd)
      · intro hmem
        rcases List.mem_cons.mp hmem with heq | hmem'
        · rw [← heq]
        · have hk : k ∈ tl.map Prod.fst :=
            List.mem_map.mpr ⟨(k, v), hmem', rfl⟩
          exact absurd hk (h ▸ hnd.1)
    · rw [if_neg h, lookupKey_eq_some_iff tl k v hnd.2]
      constructor
      · exact List.mem_cons_of_mem hd
      · intro hmem
        rcases List.mem_cons.mp hmem with heq | hmem'
        · exact absurd (congrArg Prod.fst heq).symm h
        · exact hmem'

theorem cutEq_key_no_eq (e k v : String) (h : cutEq e = some (k, v)) :
    '=' ∉ k.toList := by
  simp only [cutEq] at h
  rcases hd : e.toList.dropWhile (fun c => c != '=') with _ | ⟨c, rest⟩
  · rw [hd] at h
    simp at h
  · rw [hd] at h
    simp only [Option.some.injEq, Prod.mk.injEq] at h
    intro hmem
    rw [← h.1] at hmem
    have := List.mem_takeWhile_imp hmem
    simp at this

theorem splitEq_unique :
    ∀ (a b x y : List Char), '=' ∉ a → '=' ∉ b →
    a ++ '=' :: x = b ++ '=' :: y → a = b ∧ x = y
  | [], [], x, y, _, _, h => by simpa using h
  | [], c :: bs, x, y, _, hb, h => by
    simp only [List.nil_append, List.cons_append, List.cons.injEq] at h
    exact absurd (List.mem_cons.mpr (Or.inl h.1)) hb
  | a :: as, [], x, y, ha, _, h => by
    simp only [List.nil_append, List.cons_append, List.cons.injEq] at h
    exact absurd (List.mem_cons.mpr (Or.inl h.1.symm)) ha
  | a :: as, b :: bs, x, y, ha, hb, h => by
    simp only [List.cons_append, List.cons.injEq] at h
    have tail := splitEq_unique as bs x y
      (fun hm => ha (List.mem_cons_of_mem a hm))
      (fun hm => hb (List.mem_cons_of_mem b hm)) h.2
    exact ⟨by rw [h.1, tail.1], tail.2⟩

theorem envEntry_inj (k1 v1 k2 v2 : String) (h1 : '=' ∉ k1.toList)
    (h2 : '=' ∉ k2.toList) (h : k1 ++ "=" ++ v1 = k2 ++ "=" ++ v2) :
    k1 = k2 ∧ v1 = v2 := by
  have hd := congrArg String.data h
  simp only [String.data_append] at hd
  have heq : k1.data ++ '=' :: v1.data = k2.data ++ '=' :: v2.data := by
    simpa using hd
  have := splitEq_unique k1.data k2.data v1.data v2.data h1 h2 heq
  exact ⟨String.ext this.1, String.ext this.2⟩

theorem baseKeys_no_eq (procEnv : List String) (x : String)
    (hx : x ∈ (baseEnvMap procEnv).map Prod.fst) : '=' ∉ x.toList := by
  unfold baseEnvMap at hx
  rcases mem_keys_foldl _ _ _ hx with h | h
  · simp at h
  · obtain ⟨⟨k, v⟩, hmem, hk⟩ := List.mem_map.mp h
    obtain ⟨e, _, hcut⟩ := List.mem_filterMap.mp hmem
    exact hk ▸ cutEq_key_no_eq e k v hcut

/-- C9: `buildEnv` merges the overlay over the inherited process environment:
every overlay pair `K=v` appears in the result; every inherited variable whose
key is not overlaid keeps its original entry; and an inherited variable that
is overlaid with a different value contributes its overlay entry while its
original entry is absent.  Hypotheses: the overlay keys are distinct (a Go map
cannot repeat keys) and contain no `'='`, and the inherited environment binds
each variable once. -/
theorem buildEnv_overlay_spec (procEnv : List String)
    (env : List (String × String))
    (hEnvN : (env.map Prod.fst).Nodup)
    (hBaseN : ((procEnv.filterMap cutEq).map Prod.fst).Nodup)
    (hEnvKeys : ∀ k ∈ env.map Prod.fst, '=' ∉ k.toList) :
    (∀ k v, (k, v) ∈ env → k ++ "=" ++ v ∈ buildEnv procEnv env) ∧
    (∀ k v, (k, v) ∈ procEnv.filterMap cutEq → k ∉ env.map Prod.fst →
      k ++ "=" ++ v ∈ buildEnv procEnv env) ∧
    (∀ k v0 v1, (k, v0) ∈ procEnv.filterMap cutEq → (k, v1) ∈ env →
      v0 ≠ v1 → k ++ "=" ++ v0 ∉ buildEnv procEnv env) := by
  have hBaseNodup : ((baseEnvMap procEnv).map Prod.fst).Nodup :=
    nodupKeys_foldl _ _ (by simp)
  have hMergedNodup :
      ((env.foldl (fun m kv => upsert m kv.1 kv.2)
        (baseEnvMap procEnv)).map Prod.fst).Nodup :=
    nodupKeys_foldl env _ hBaseNodup
  refine ⟨?_, ?_, ?_⟩
  · intro k v hkv
    have hlk : lookupKey (env.foldl (fun m kv => upsert m kv.1 kv.2)
        (baseEnvMap procEnv)) k = some v :=
      lookupKey_foldl_of_mem env _ k v hEnvN hkv
    have hmem := (lookupKey_eq_some_iff _ k v hMergedNodup).mp hlk
    exact List.mem_map.mpr ⟨(k, v), hmem, rfl⟩
  · intro k v hkv hknot
    have hlk : lookupKey (env.foldl (fun m kv => upsert m kv.1 kv.2)
        (baseEnvMap procEnv)) k = some v := by
      rw [lookupKey_foldl_of_not_mem env _ k hknot]
      exact lookupKey_foldl_of_mem _ _ k v hBaseN hkv
    have hmem := (lookupKey_eq_some_iff _ k v hMergedNodup).mp hlk
    exact List.mem_map.mpr ⟨(k, v), hmem, rfl⟩
  · intro k v0 v1 hbase henv hne hmem
    obtain ⟨⟨k', v'⟩, hmem', heq⟩ := List.mem_map.mp hmem
    have hk'free : '=' ∉ k'.toList := by
      have hkeys : k' ∈ (baseEnvMap procEnv).map Prod.fst ∨
          k' ∈ env.map Prod.fst :=
        mem_keys_foldl env _ k' (List.mem_map.mpr ⟨(k', v'), hmem', rfl⟩)
      rcases hkeys with h | h
      · exact baseKeys_no_eq procEnv k' h
      · exact hEnvKeys k' h
    have hkfree : '=' ∉ k.toList := by
      obtain ⟨e, _, hcut⟩ := List.mem_filterMap.mp hbase
      exact cutEq_key_no_eq e k v0 hcut
    obtain ⟨hkk, hvv⟩ := envEntry_inj k' v' k v0 hk'free hkfree heq
    subst hkk
    subst hvv
    have hlk0 : lookupKey (env.foldl (fun m kv => upsert m kv.1 kv.2)
        (baseEnvMap procEnv)) k' = some v' :=
      (lookupKey_eq_some_iff _ k' v' hMergedNodup).mpr hmem'
    have hlk1 : lookupKey (env.foldl (fun m kv => upsert m kv.1 kv.2)
        (baseEnvMap procEnv)) k' = some v1 :=
      lookupKey_foldl_of_mem env _ k' v1 hEnvN henv
    rw [hlk0] at hlk1
    exact hne (Option.some.inj hlk1)

/-- Witness for C9: the spec's §8 example — overlay `{K: v, PATH: /custom}`
over an inherited environment `HOME=/root, PATH=/usr/bin`: the overlay pair
and the untouched `HOME` entry appear, and the replaced original `PATH` entry
is absent. -/
theorem buildEnv_overlay_spec_witness :
    "K=v" ∈ buildEnv ["HOME=/root", "PATH=/usr/bin"]
      [("K", "v"), ("PATH", "/custom")] ∧
    "PATH=/custom" ∈ buildEnv ["HOME=/root", "PATH=/usr/bin"]
      [("K", "v"), ("PATH", "/custom")] ∧
    "HOME=/root" ∈ buildEnv ["HOME=/root", "PATH=/usr/bin"]
      [("K", "v"), ("PATH", "/custom")] ∧
    "PATH=/usr/bin" ∉ buildEnv ["HOME=/root", "PATH=/usr/bin"]
      [("K", "v"), ("PATH", "/custom")] := by
  have hspec := buildEnv_overlay_spec ["HOME=/root", "PATH=/usr/bin"]
    [("K", "v"), ("PATH", "/custom")] (by decide) (by decide) (by decide)
  refine ⟨?_, ?_, ?_, ?_⟩
  · have := hspec.1 "K" "v" (by decide)
    simpa using this
  · have := hspec.1 "PATH" "/custom" (by decide)
    simpa using this
  · have := hspec.2.1 "HOME" "/root" (by decide) (by decide)
    simpa using this
  · have := hspec.2.2 "PATH" "/usr/bin" "/custom" (by decide) (by decide)
      (by decide)
    simpa using this

/-! ### Lemmas about the witness `Start` tail -/

theorem startAfterGuard_trace (e : Witness.StartEnv) (ao : String)
    (ov : List String) (acts : List Witness.Action) :
    (Witness.startAfterGuard e ao ov acts).2 =
      acts ++ (Witness.startAfterGuard e ao ov []).2 := by
  unfold Witness.startAfterGuard
  cases hs : e.settingsErr with
  | some err => simp [hs]
  | none =>
    cases hrc : Witness.roleConfig e with
    | error err => simp [hs, hrc]
    | ok rc =>
      cases hbc : Witness.buildWitnessStartCommand e ao (some rc) with
      | error err => simp [hs, hrc, hbc]
      | ok cmd =>
        cases hce : e.createErr with
        | some err => simp [hs, hrc, hbc, hce]
        | none =>
          cases hex : e.extras with
          | none => simp [hs, hrc, hbc, hce, hex]
          | some ex =>
            cases hw : ex.waitErr with
            | some err => simp [hs, hrc, hbc, hce, hex, hw]
            | none => simp [hs, hrc, hbc, hce, hex, hw]

theorem roleConfig_error_wrap (e : Witness.StartEnv) (err : GoError)
    (h : Witness.roleConfig e = .error err) : ∃ t i, err = .wrap t i := by
  unfold Witness.roleConfig at h
  split at h
  · exact ⟨_, _, (Except.error.inj h).symm⟩
  · cases h

theorem buildCommand_error_wrap (e : Witness.StartEnv) (ao : String)
    (rc0 : Option Witness.RoleCfg) (err : GoError)
    (h : Witness.buildWitnessStartCommand e ao rc0 = .error err) :
    ∃ t i, err = .wrap t i := by
  unfold Witness.buildWitnessStartCommand at h
  repeat' split at h
  all_goals first
    | exact ⟨_, _, rfl⟩
    | exact ⟨_, _, (Except.error.inj h).symm⟩
    | cases h

theorem startAfterGuard_result (e : Witness.StartEnv) (ao : String)
    (ov : List String) (acts : List Witness.Action) :
    (Witness.startAfterGuard e ao ov acts).1 = none ∨
    ∃ t i, (Witness.startAfterGuard e ao ov acts).1 = some (.wrap t i) := by
  unfold Witness.startAfterGuard
  cases hs : e.settingsErr with
  | some err =>
    exact Or.inr ⟨"ensuring runtime settings: " ++ errText err, err,
      by simp [hs]⟩
  | none =>
    cases hrc : Witness.roleConfig e with
    | error err =>
      obtain ⟨t, i, hti⟩ := roleConfig_error_wrap e err hrc
      exact Or.inr ⟨t, i, by simp [hs, hrc, hti]⟩
    | ok rc =>
      cases hbc : Witness.buildWitnessStartCommand e ao (some rc) with
      | error err =>
        obtain ⟨t, i, hti⟩ := buildCommand_error_wrap e ao (some rc) err hbc
        exact Or.inr ⟨t, i, by simp [hs, hrc, hbc, hti]⟩
      | ok cmd =>
        cases hce : e.createErr with
        | some err =>
          exact Or.inr ⟨"creating session: " ++ errText err, err,
            by simp [hs, hrc, hbc, hce]⟩
        | none =>
          cases hex : e.extras with
          | none => exact Or.inl (by simp [hs, hrc, hbc, hce, hex])
          | some ex =>
            cases hw : ex.waitErr with
            | some err =>
              exact Or.inr ⟨"waiting for witness to start: " ++ errText err,
                err, by simp [hs, hrc, hbc, hce, hex, hw]⟩
            | none => exact Or.inl (by simp [hs, hrc, hbc, hce, hex, hw])

theorem startAfterGuard_creates (e : Witness.StartEnv) (ao : String)
    (ov : List String) (acts : List Witness.Action) (rc : Witness.RoleCfg)
    (cmd : String) (hset : e.settingsErr = none)
    (hrc : Witness.roleConfig e = .ok rc)
    (hcmd : Witness.buildWitnessStartCommand e ao (some rc) = .ok cmd) :
    ∃ rest, (Witness.startAfterGuard e ao ov acts).2 =
      (acts ++ [Witness.Action.newSessionWithCommand e.sessionID
        e.witnessDir cmd]) ++ rest := by
  unfold Witness.startAfterGuard
  simp only [hset, hrc, hcmd]
  cases hce : e.createErr with
  | some err => exact ⟨[], by simp [hce]⟩
  | none =>
    cases hex : e.extras with
    | none => exact ⟨Witness.envSetActions e ov, by simp [hce, hex]⟩
    | some ex =>
      cases hw : ex.waitErr with
      | some err =>
        exact ⟨Witness.envSetActions e ov ++
          [Witness.Action.killSessionWithProcesses e.sessionID],
          by simp [hce, hex, hw]⟩
      | none => exact ⟨Witness.envSetActions e ov, by simp [hce, hex, hw]⟩

/-- C2: the `Start` guard of the witness supervisor (background mode): when
the session exists and the hosted agent is alive, `Start` fails with
`ErrAlreadyRunning` and performs no backend session operation; when the
session exists but the agent is not alive (zombie), the first backend action
is destroying the existing session, the result is never `ErrAlreadyRunning`,
and — once the kill and the collaborator steps succeed — the next action is
creating the new session with the resolved command. -/
theorem start_guard_spec (e : Witness.StartEnv) (agentOverride : String)
    (envOverrides : List String) :
    (e.hasSession.1 = true → e.isAgentAlive = true →
      Witness.Start e false agentOverride envOverrides =
        (some .alreadyRunning, [])) ∧
    (e.hasSession.1 = true → e.isAgentAlive = false →
      (Witness.Start e false agentOverride envOverrides).2.head? =
        some (.killSession e.sessionID) ∧
      (Witness.Start e false agentOverride envOverrides).1 ≠
        some .alreadyRunning ∧
      (e.killErr = none → e.settingsErr = none →
        ∀ rc cmd, Witness.roleConfig e = .ok rc →
          Witness.buildWitnessStartCommand e agentOverride (some rc) = .ok cmd →
          ∃ rest, (Witness.Start e false agentOverride envOverrides).2 =
            Witness.Action.killSession e.sessionID ::
            Witness.Action.newSessionWithCommand e.sessionID e.witnessDir cmd ::
            rest)) := by
  constructor
  · intro h1 h2
    simp [Witness.Start, h1, h2]
  · intro h1 h2
    refine ⟨?_, ?_, ?_⟩
    · cases hk : e.killErr with
      | some err => simp [Witness.Start, h1, h2, hk]
      | none =>
        simp only [Witness.Start, h1, h2, hk, Bool.false_eq_true, if_false,
          if_true]
        rw [startAfterGuard_trace]
        simp
    · cases hk : e.killErr with
      | some err => simp [Witness.Start, h1, h2, hk]
      | none =>
        simp only [Witness.Start, h1, h2, hk, Bool.false_eq_true, if_false,
          if_true]
        rcases startAfterGuard_result e agentOverride envOverrides
            [Witness.Action.killSession e.sessionID] with h | ⟨t, i, h⟩ <;>
          simp [h]
    · intro hkill hset rc cmd hrc hcmd
      simp only [Witness.Start, h1, h2, hkill, Bool.false_eq_true, if_false,
        if_true]
      obtain ⟨rest, hr⟩ := startAfterGuard_creates e agentOverride envOverrides
        [Witness.Action.killSession e.sessionID] rc cmd hset hrc hcmd
      exact ⟨rest, by rw [hr]; simp⟩

/-- Witness for C2: a healthy concrete environment is rejected with
`AlreadyRunning` and no backend action; a zombie concrete environment is
killed first, is not reported `AlreadyRunning`, and its first two actions are
the kill followed by the creation with the resolved command. -/
theorem start_guard_spec_witness :
    Witness.Start ⟨"gt-witness", "/wd", (true, none), true, none, none, none,
        .ok ⟨"", []⟩, fun s => s, .ok "claude", none, [], [], none⟩
      false "" [] = (some .alreadyRunning, []) ∧
    (Witness.Start ⟨"gt-witness", "/wd", (true, none), false, none, none, none,
        .ok ⟨"", []⟩, fun s => s, .ok "claude", none, [], [], none⟩
      false "" []).2.head? = some (.killSession "gt-witness") ∧
    (Witness.Start ⟨"gt-witness", "/wd", (true, none), false, none, none, none,
        .ok ⟨"", []⟩, fun s => s, .ok "claude", none, [], [], none⟩
      false "" []).1 ≠ some .alreadyRunning ∧
    (Witness.Start ⟨"gt-witness", "/wd", (true, none), false, none, none, none,
        .ok ⟨"", []⟩, fun s => s, .ok "claude", none, [], [], none⟩
      false "" []).2.take 2 =
      [.killSession "gt-witness",
       .newSessionWithCommand "gt-witness" "/wd" "claude"] := by
  refine ⟨?_, ?_, ?_, ?_⟩
  · exact (start_guard_spec
      ⟨"gt-witness", "/wd", (true, none), true, none, none, none,
        .ok ⟨"", []⟩, fun s => s, .ok "claude", none, [], [], none⟩
      "" []).1 rfl rfl
  · exact ((start_guard_spec
      ⟨"gt-witness", "/wd", (true, none), false, none, none, none,
        .ok ⟨"", []⟩, fun s => s, .ok "claude", none, [], [], none⟩
      "" []).2 rfl rfl).1
  · exact ((start_guard_spec
      ⟨"gt-witness", "/wd", (true, none), false, none, none, none,
        .ok ⟨"", []⟩, fun s => s, .ok "claude", none, [], [], none⟩
      "" []).2 rfl rfl).2.1
  · obtain ⟨rest, hr⟩ := ((start_guard_spec
      ⟨"gt-witness", "/wd", (true, none), false, none, none, none,
        .ok ⟨"", []⟩, fun s => s, .ok "claude", none, [], [], none⟩
      "" []).2 rfl rfl).2.2 rfl rfl ⟨"", []⟩ "claude" rfl rfl
    rw [hr]
    rfl
